import Mathlib

/-!
Shallow embedding of the decision/gating core of the gemini-email-agent
repository: the rule matcher (src/rule_engine.py), the confidence gate,
rate limiter and safety gate (src/safety_layer.py), and the per-email
action resolver (src/main.py).

Modelling conventions:
- Python floats used for confidence scores and thresholds become rationals;
  only order comparisons are performed on them in the source.
- Timestamps (datetime values, persisted as ISO strings) become integers
  counting seconds; timedelta(hours=1) becomes the constant 3600, and the
  comparison datetime.fromisoformat(ts) > one_hour_ago becomes
  now - 3600 < ts.
- The mutable SafetyLayer.state dictionary holds a single list under the
  key sent_log; we model the state as that list of timestamps.  _save_state
  writes the in-memory state to disk; since the in-memory copy stays
  authoritative, persistence is modelled by the state value returned by
  each operation.
- Execution modes are the literal strings produced by the source
  (send, draft, manual), not an enum, because validate_action is called
  with arbitrary strings such as draft_reply and returns them unchanged.
-/

namespace EmailAgent

/-- Rate-limit section of the safety configuration
(RateLimitConfig in src/config_manager.py). -/
structure RateLimitConfig where
  enabled : Bool
  max_emails_per_hour : Nat
deriving DecidableEq

/-- Safety configuration (SafetyConfig in src/config_manager.py); the
fields not used by the core (allowed_domains_for_reply) are omitted. -/
structure SafetyConfig where
  min_confidence_for_auto_action : ℚ
  min_confidence_for_draft : ℚ
  rate_limit : RateLimitConfig
  human_in_the_loop_label : String
deriving DecidableEq

/-- SafetyLayer.check_rate_limit (src/safety_layer.py lines 39-60).
Returns the boolean answer together with the new (pruned and persisted)
sent_log state.  When rate limiting is disabled the state is untouched. -/
def check_rate_limit (cfg : SafetyConfig) (now : Int) (log : List Int) :
    Bool × List Int :=
  if cfg.rate_limit.enabled = false then
    (true, log)
  else
    let valid_logs := log.filter (fun ts => decide (now - 3600 < ts))
    if cfg.rate_limit.max_emails_per_hour ≤ valid_logs.length then
      (false, valid_logs)
    else
      (true, valid_logs)

/-- SafetyLayer.record_action (src/safety_layer.py lines 62-65): append the
current timestamp to the sent_log and persist. -/
def record_action (now : Int) (log : List Int) : List Int :=
  log ++ [now]

/-- SafetyLayer.determine_execution_mode (src/safety_layer.py lines 67-76). -/
def determine_execution_mode (cfg : SafetyConfig) (confidence : ℚ) : String :=
  if cfg.min_confidence_for_auto_action ≤ confidence then
    "send"
  else if cfg.min_confidence_for_draft ≤ confidence then
    "draft"
  else
    "manual"

/-- SafetyLayer.validate_action (src/safety_layer.py lines 78-97).
Returns the final mode together with the sent_log state after the call
(check_rate_limit runs, and hence prunes and persists, only when the
proposed mode is the literal string send). -/
def validate_action (cfg : SafetyConfig) (now : Int) (log : List Int)
    (proposed_mode : String) (confidence : ℚ) : String × List Int :=
  if proposed_mode = "send" then
    let r := check_rate_limit cfg now log
    if r.1 = false then
      ("draft", r.2)
    else
      let safe_mode := determine_execution_mode cfg confidence
      if safe_mode ≠ "send" then (safe_mode, r.2) else ("send", r.2)
  else
    (proposed_mode, log)

/-- Outcome of trying to read the persisted state file, as seen by
SafetyLayer._load_state: the file may be absent, it may exist but fail to
open or parse, or it may parse to a state with the given sent_log. -/
inductive FileRead where
  | absent
  | unreadable
  | content (sent_log : List Int)
deriving DecidableEq

/-- SafetyLayer._load_state (src/safety_layer.py lines 21-30): a missing
file and any read or parse failure both yield the empty sent_log. -/
def load_state : FileRead → List Int
  | FileRead.absent => []
  | FileRead.unreadable => []
  | FileRead.content l => l

/-- A concrete safety configuration with the default thresholds from
src/config_manager.py, used to instantiate universally quantified
theorems at evaluable inputs. -/
def cfg0 : SafetyConfig :=
  { min_confidence_for_auto_action := mkRat 85 100
    min_confidence_for_draft := mkRat 60 100
    rate_limit := { enabled := true, max_emails_per_hour := 50 }
    human_in_the_loop_label := "AI_REVIEW_NEEDED" }

/-- A configuration whose thresholds violate the expected (but unenforced)
invariant auto-threshold at least draft-threshold. -/
def cfgBad : SafetyConfig :=
  { min_confidence_for_auto_action := mkRat 1 4
    min_confidence_for_draft := mkRat 1 2
    rate_limit := { enabled := true, max_emails_per_hour := 50 }
    human_in_the_loop_label := "AI_REVIEW_NEEDED" }

/-- The fields of the AI classification record that the core reads
(analysis.get calls in src/rule_engine.py and src/main.py).  The intent
and priority fields are optional because analysis.get returns None when
the key is missing. -/
structure Analysis where
  intent : Option String
  priority : Option String
  confidence_score : ℚ
  suggested_response : String
deriving DecidableEq

/-- A rule action (ActionConfig in src/config_manager.py): a type tag and
an optional value (the label name); the template field is informational
only and not read by the core. -/
structure Action where
  type : String
  value : Option String
deriving DecidableEq

/-- A configured rule (RuleConfig in src/config_manager.py): the condition
is an open string-to-string mapping, modelled as an association list with
dictionary semantics (first binding wins, keys expected distinct). -/
structure Rule where
  name : String
  condition : List (String × String)
  actions : List Action
deriving DecidableEq

/-- Dictionary lookup on a condition mapping: some v when the key is
present with value v (the Python tests key in condition and
condition[key]), none when absent. -/
def lookupCond (cond : List (String × String)) (k : String) : Option String :=
  match cond with
  | [] => none
  | (k', v) :: rest => if k' = k then some v else lookupCond rest k

/-- The per-rule match test of RuleEngine.evaluate (src/rule_engine.py
lines 35-40): the rule matches unless the condition names intent with a
value different from the classification intent, or names priority with a
value different from the classification priority.  Keys other than intent
and priority are never examined by the source. -/
def ruleMatches (cond : List (String × String)) (a : Analysis) : Bool :=
  (match lookupCond cond "intent" with
   | none => true
   | some v => decide (a.intent = some v)) &&
  (match lookupCond cond "priority" with
   | none => true
   | some v => decide (a.priority = some v))

/-- RuleEngine.evaluate (src/rule_engine.py lines 14-46): walk the rules
in order and append the action list of every matching rule. -/
def evaluate (rules : List Rule) (a : Analysis) : List Action :=
  match rules with
  | [] => []
  | r :: rest =>
      (if ruleMatches r.condition a then r.actions else []) ++ evaluate rest a

/-- The classification field corresponding to a condition key, used to
state the spec-side match criterion (every field named in the condition
equals the corresponding field of the classification). -/
def fieldOf (a : Analysis) (k : String) : Option String :=
  if k = "intent" then a.intent
  else if k = "priority" then a.priority
  else none

/-- External calls the resolver can make: a Mail Transport send_email call
with the given mode, an add_label call, an archive_email call, and a
Rate Limiter record_action call.  The rate-limit check and prune performed
inside validate_action is state-internal and is tracked in the log
component of ResolveState, not as an external call. -/
inductive Effect where
  | sendEmail (mode : String)
  | addLabel (label : String)
  | archiveEmail
  | recordSend
deriving DecidableEq

/-- The state threaded through the per-email loop of main
(src/main.py lines 77-140): the executed_actions list, the rate limiter
sent_log, and the list of external calls made so far, in order. -/
structure ResolveState where
  executed : List String
  log : List Int
  effects : List Effect
deriving DecidableEq

/-- Rendering of an optional string inside a Python f-string:
None prints as the four-letter string None. -/
def pyShow : Option String → String
  | some s => s
  | none => "None"

/-- One iteration of the action loop of main (src/main.py lines 80-132).
dryRun is the dry-run flag, now the current time, a the classification,
sendOk the success value the Mail Transport would return for a send_email
call made by this iteration. -/
def processAction (cfg : SafetyConfig) (dryRun : Bool) (now : Int)
    (a : Analysis) (st : ResolveState) (act : Action) (sendOk : Bool) :
    ResolveState :=
  if act.type = "draft_reply" ∨ act.type = "reply" then
    let mode := if act.type = "draft_reply" then "draft" else "send"
    let v := validate_action cfg now st.log mode a.confidence_score
    let st1 : ResolveState := { st with log := v.2 }
    if v.1 ≠ "manual" then
      if dryRun then
        { st1 with executed := st1.executed ++ ["DRY_RUN_" ++ v.1] }
      else if a.suggested_response = "" then
        st1
      else
        let st2 : ResolveState :=
          { st1 with effects := st1.effects ++ [Effect.sendEmail v.1] }
        if sendOk then
          let st3 : ResolveState :=
            { st2 with executed := st2.executed ++ [v.1] }
          if v.1 = "send" then
            { st3 with log := record_action now st3.log
                       effects := st3.effects ++ [Effect.recordSend] }
          else st3
        else st2
    else st1
  else if act.type = "label" then
    if dryRun then
      { st with executed := st.executed ++ ["DRY_RUN_LABEL_" ++ pyShow act.value] }
    else
      { st with executed := st.executed ++ ["LABEL_" ++ pyShow act.value]
                effects := st.effects ++ [Effect.addLabel (pyShow act.value)] }
  else if act.type = "archive" then
    if dryRun then
      { st with executed := st.executed ++ ["DRY_RUN_ARCHIVE"] }
    else
      { st with executed := st.executed ++ ["ARCHIVE"]
                effects := st.effects ++ [Effect.archiveEmail] }
  else st

/-- The whole action loop of main, folding processAction over the
candidate actions, each paired with the Mail Transport success value for
the send_email call it would make. -/
def processActions (cfg : SafetyConfig) (dryRun : Bool) (now : Int)
    (a : Analysis) (st : ResolveState) :
    List (Action × Bool) → ResolveState
  | [] => st
  | (act, ok) :: rest =>
      processActions cfg dryRun now a
        (processAction cfg dryRun now a st act ok) rest

/-- Per-email resolution (src/main.py lines 77-140): run the action loop
starting from an empty executed_actions list and the current sent_log,
then apply the low-confidence fallback of lines 134-140: when confidence
is below min_confidence_for_draft and nothing was executed, record the
human-in-the-loop review label (dispatching the add_label call only when
not in dry-run). -/
def resolveEmail (cfg : SafetyConfig) (dryRun : Bool) (now : Int)
    (a : Analysis) (acts : List (Action × Bool)) (log : List Int) :
    ResolveState :=
  let st := processActions cfg dryRun now a ⟨[], log, []⟩ acts
  if a.confidence_score < cfg.min_confidence_for_draft ∧ st.executed = [] then
    { executed := st.executed ++ ["LABEL_" ++ cfg.human_in_the_loop_label]
      log := st.log
      effects := st.effects ++
        (if dryRun then [] else [Effect.addLabel cfg.human_in_the_loop_label]) }
  else st

/-- A concrete low-confidence classification (scenario C of the tests). -/
def a_low : Analysis :=
  { intent := some "Urgent"
    priority := some "High"
    confidence_score := mkRat 55 100
    suggested_response := "I am looking into it." }

/-- A concrete high-confidence classification (scenario A of the tests). -/
def a_high : Analysis :=
  { intent := some "Meeting"
    priority := some "High"
    confidence_score := mkRat 95 100
    suggested_response := "Sure, we can meet." }

/-- The concrete rule list from tests/test_scenarios.py. -/
def rules0 : List Rule :=
  [ { name := "Urgent Meeting Request"
      condition := [("intent", "Meeting"), ("priority", "High")]
      actions := [ { type := "label", value := some "Urgent-Meeting" },
                   { type := "draft_reply", value := none } ] },
    { name := "Newsletter Archive"
      condition := [("intent", "Newsletter")]
      actions := [ { type := "label", value := some "Newsletters" },
                   { type := "archive", value := none } ] },
    { name := "Spam Block"
      condition := [("intent", "Spam")]
      actions := [ { type := "label", value := some "Potential-Spam" } ] } ]

example : evaluate rules0 a_high =
    [ { type := "label", value := some "Urgent-Meeting" },
      { type := "draft_reply", value := none } ] := by decide

example : (resolveEmail cfg0 true 7200 a_low [] []).executed =
    ["LABEL_AI_REVIEW_NEEDED"] := by decide

example :
    resolveEmail cfg0 false 7200 a_high
      [({ type := "reply", value := none }, true)] [] =
    { executed := ["send"], log := [7200]
      effects := [Effect.sendEmail "send", Effect.recordSend] } := by decide

example : (check_rate_limit cfg0 7200 [100, 4000]).2 = [4000] := by decide
example : determine_execution_mode cfg0 (mkRat 90 100) = "send" := by decide
example : determine_execution_mode cfgBad (mkRat 1 3) = "send" := by decide
example : validate_action cfg0 7200 [] "draft_reply" (mkRat 1 10) =
    ("draft_reply", []) := by decide

/-- Helper: with rate limiting enabled, the state component returned by
check_rate_limit is the filtered log, whichever answer is given. -/
lemma check_rate_limit_enabled_snd (cfg : SafetyConfig) (now : Int)
    (log : List Int) (h : cfg.rate_limit.enabled = true) :
    (check_rate_limit cfg now log).2 =
      log.filter (fun ts => decide (now - 3600 < ts)) := by
  by_cases hl : cfg.rate_limit.max_emails_per_hour ≤
      (log.filter (fun ts => decide (now - 3600 < ts))).length <;>
    simp [check_rate_limit, h, hl]

/-- Helper: with rate limiting enabled, the boolean answer of
check_rate_limit is true exactly when the filtered log is strictly below
the hourly maximum. -/
lemma check_rate_limit_enabled_fst (cfg : SafetyConfig) (now : Int)
    (log : List Int) (h : cfg.rate_limit.enabled = true) :
    ((check_rate_limit cfg now log).1 = true ↔
      (log.filter (fun ts => decide (now - 3600 < ts))).length <
        cfg.rate_limit.max_emails_per_hour) := by
  by_cases hl : cfg.rate_limit.max_emails_per_hour ≤
      (log.filter (fun ts => decide (now - 3600 < ts))).length
  · simp [check_rate_limit, h, hl]
  · simp [check_rate_limit, h, hl]
    omega

/-- C1: for every confidence c, when the proposed mode is send, a
rate-limiter denial makes validate return draft (rate limit taking
precedence), and otherwise validate of send equals the confidence gate
result, whether that is send, draft or manual. -/
theorem C1_validate_send (cfg : SafetyConfig) (now : Int) (log : List Int)
    (c : ℚ) :
    ((check_rate_limit cfg now log).1 = false →
      (validate_action cfg now log "send" c).1 = "draft") ∧
    ((check_rate_limit cfg now log).1 = true →
      (validate_action cfg now log "send" c).1 =
        determine_execution_mode cfg c) := by
  constructor
  · intro h
    simp [validate_action, h]
  · intro h
    rcases eq_or_ne (determine_execution_mode cfg c) "send" with he | he <;>
      simp [validate_action, h, he]

/-- Witness for C1 at the default configuration, empty log and a
high-confidence score. -/
theorem C1_validate_send_witness :
    (validate_action cfg0 7200 [] "send" (mkRat 95 100)).1 =
      determine_execution_mode cfg0 (mkRat 95 100) :=
  (C1_validate_send cfg0 7200 [] (mkRat 95 100)).2 (by decide)

/-- C2 counterexample: with draft-threshold one half and auto-threshold
one quarter (the unenforced misconfiguration the spec itself mentions),
a confidence of one third is below the draft threshold yet the gate
returns send, not manual, because the send comparison is evaluated
first. -/
theorem C2_mode_counterexample :
    (mkRat 1 3) < cfgBad.min_confidence_for_draft ∧
    determine_execution_mode cfgBad (mkRat 1 3) = "send" ∧
    determine_execution_mode cfgBad (mkRat 1 3) ≠ "manual" := by decide

/-- C2 amended: the send clause and the draft clause hold for every
configuration; the manual clause (confidence below the draft threshold
gives manual) holds provided the draft threshold does not exceed the
auto threshold. -/
theorem C2_mode_thresholds (cfg : SafetyConfig) (c : ℚ) :
    (cfg.min_confidence_for_auto_action ≤ c →
      determine_execution_mode cfg c = "send") ∧
    (cfg.min_confidence_for_draft ≤ c ∧
        c < cfg.min_confidence_for_auto_action →
      determine_execution_mode cfg c = "draft") ∧
    (cfg.min_confidence_for_draft ≤ cfg.min_confidence_for_auto_action →
      c < cfg.min_confidence_for_draft →
      determine_execution_mode cfg c = "manual") := by
  refine ⟨fun h => ?_, fun h => ?_, fun hc h => ?_⟩
  · simp [determine_execution_mode, h]
  · simp [determine_execution_mode, not_le.mpr h.2, h.1]
  · have h2 : ¬ cfg.min_confidence_for_auto_action ≤ c :=
      not_le.mpr (lt_of_lt_of_le h hc)
    simp [determine_execution_mode, h2, not_le.mpr h]

/-- Witness for C2 amended: the medium-confidence band of the default
configuration yields draft. -/
theorem C2_mode_thresholds_witness :
    determine_execution_mode cfg0 (mkRat 75 100) = "draft" :=
  (C2_mode_thresholds cfg0 (mkRat 75 100)).2.1 (by decide)

/-- C3: any proposed mode other than the literal send is returned
unchanged, for every confidence, and the rate limiter state is not
touched (the rate-limit check does not even run). -/
theorem C3_nonsend_passthrough (cfg : SafetyConfig) (now : Int)
    (log : List Int) (m : String) (c : ℚ) (h : m ≠ "send") :
    validate_action cfg now log m c = (m, log) := by
  simp [validate_action, h]

/-- Witness for C3 at the rule-supplied literal draft_reply. -/
theorem C3_nonsend_passthrough_witness :
    validate_action cfg0 7200 [100] "draft_reply" (mkRat 95 100) =
      ("draft_reply", [100]) :=
  C3_nonsend_passthrough cfg0 7200 [100] "draft_reply" (mkRat 95 100)
    (by decide)

/-- C5: check_rate_limit returns true with untouched state when rate
limiting is disabled; otherwise the persisted state is the log pruned to
the trailing hour, the answer is true exactly when the pruned count is
strictly below the hourly maximum, every timestamp older than one hour
is excluded, and a log of at least the maximum many in-window sends
yields false. -/
theorem C5_check_rate_limit (cfg : SafetyConfig) (now : Int)
    (log : List Int) :
    (cfg.rate_limit.enabled = false →
      check_rate_limit cfg now log = (true, log)) ∧
    (cfg.rate_limit.enabled = true →
      (check_rate_limit cfg now log).2 =
        log.filter (fun ts => decide (now - 3600 < ts)) ∧
      ((check_rate_limit cfg now log).1 = true ↔
        (log.filter (fun ts => decide (now - 3600 < ts))).length <
          cfg.rate_limit.max_emails_per_hour) ∧
      (∀ ts ∈ log, ts < now - 3600 →
        ts ∉ (check_rate_limit cfg now log).2) ∧
      ((∀ ts ∈ log, now - 3600 < ts) →
        cfg.rate_limit.max_emails_per_hour ≤ log.length →
        (check_rate_limit cfg now log).1 = false)) := by
  constructor
  · intro h
    simp [check_rate_limit, h]
  · intro h
    refine ⟨check_rate_limit_enabled_snd cfg now log h,
            check_rate_limit_enabled_fst cfg now log h, ?_, ?_⟩
    · intro ts _ hold hmem
      rw [check_rate_limit_enabled_snd cfg now log h] at hmem
      simp [List.mem_filter] at hmem
      omega
    · intro hall hlen
      have hfilter : log.filter (fun ts => decide (now - 3600 < ts)) = log := by
        apply List.filter_eq_self.mpr
        intro ts hts
        simpa using hall ts hts
      have := check_rate_limit_enabled_fst cfg now log h
      rw [hfilter] at this
      rcases hb : (check_rate_limit cfg now log).1 with _ | _
      · rfl
      · exact absurd (this.mp hb) (by omega)

/-- Witness for C5 at a concrete log with one stale and one fresh
timestamp. -/
theorem C5_check_rate_limit_witness :
    (check_rate_limit cfg0 7200 [100, 4000]).2 =
      [100, 4000].filter (fun ts => decide ((7200:Int) - 3600 < ts)) ∧
    (100:Int) ∉ (check_rate_limit cfg0 7200 [100, 4000]).2 :=
  ⟨((C5_check_rate_limit cfg0 7200 [100, 4000]).2 (by decide)).1,
   ((C5_check_rate_limit cfg0 7200 [100, 4000]).2 (by decide)).2.2.1
     100 (by decide) (by decide)⟩

/-- C6 counterexample: record_action appends without pruning, so after a
record call at time 7200 on a state holding timestamp 0, the stale
timestamp 0 is still in the state although it is more than one hour
old. -/
theorem C6_record_counterexample :
    (0:Int) ∈ record_action 7200 [0] ∧ ¬ ((7200:Int) - 3600 < 0) := by
  decide

/-- C6 amended: after a check call with rate limiting enabled every
remaining timestamp lies within the trailing hour; a record call appends
the current timestamp and keeps all prior entries, so the trailing-hour
invariant holds after record provided it held for the prior entries at
record time. -/
theorem C6_window_invariant (cfg : SafetyConfig) (now : Int)
    (log : List Int) :
    (cfg.rate_limit.enabled = true →
      ∀ ts ∈ (check_rate_limit cfg now log).2, now - 3600 < ts) ∧
    ((∀ u ∈ log, now - 3600 < u) →
      ∀ ts ∈ record_action now log, now - 3600 < ts) := by
  constructor
  · intro h ts hts
    rw [check_rate_limit_enabled_snd cfg now log h] at hts
    simp [List.mem_filter] at hts
    exact hts.2
  · intro hall ts hts
    simp [record_action] at hts
    rcases hts with hmem | hnow
    · exact hall ts hmem
    · omega

/-- Witness for C6 amended at a concrete in-window log. -/
theorem C6_window_invariant_witness :
    (7200:Int) - 3600 < 4000 ∧
    (check_rate_limit cfg0 7200 [4000]).2 = [4000] :=
  ⟨(C6_window_invariant cfg0 7200 [4000]).2 (by decide) 4000 (by decide),
   by decide⟩

/-- C10: a missing state file and an unreadable or unparsable state file
both reset the rate limiter to the empty send log, a readable file keeps
its contents, and on the reset state the rate limiter allows sends
whenever the hourly maximum is positive (fail-open). -/
theorem C10_load_state_fail_open :
    load_state FileRead.absent = [] ∧
    load_state FileRead.unreadable = [] ∧
    (∀ l, load_state (FileRead.content l) = l) ∧
    (∀ cfg : SafetyConfig, ∀ now : Int,
      0 < cfg.rate_limit.max_emails_per_hour →
      (check_rate_limit cfg now (load_state FileRead.unreadable)).1 = true) := by
  refine ⟨rfl, rfl, fun l => rfl, fun cfg now h => ?_⟩
  by_cases he : cfg.rate_limit.enabled = false
  · simp [check_rate_limit, he, load_state]
  · have he' : cfg.rate_limit.enabled = true := by
      revert he
      rcases cfg.rate_limit.enabled with _ | _ <;> simp
    rw [(check_rate_limit_enabled_fst cfg now (load_state FileRead.unreadable) he')]
    simp [load_state]
    omega

/-- Witness for C10 at the default configuration. -/
theorem C10_load_state_fail_open_witness :
    (check_rate_limit cfg0 1000 (load_state FileRead.unreadable)).1 = true :=
  C10_load_state_fail_open.2.2.2 cfg0 1000 (by decide)

/-- Helper: a successful condition lookup comes from a binding in the
mapping. -/
lemma lookupCond_mem (cond : List (String × String)) (k v : String)
    (h : lookupCond cond k = some v) : (k, v) ∈ cond := by
  induction cond with
  | nil => simp [lookupCond] at h
  | cons p rest ih =>
    obtain ⟨k', v'⟩ := p
    rw [lookupCond] at h
    by_cases hk : k' = k
    · rw [if_pos hk] at h
      injection h with hv
      subst hk
      subst hv
      exact List.mem_cons_self _ _
    · rw [if_neg hk] at h
      exact List.mem_cons_of_mem _ (ih h)

/-- Helper: when the mapping has distinct keys (as a Python dict does),
every binding is found by lookup. -/
lemma lookupCond_of_mem_nodup (cond : List (String × String)) (k v : String)
    (hnodup : (cond.map Prod.fst).Nodup) (h : (k, v) ∈ cond) :
    lookupCond cond k = some v := by
  induction cond with
  | nil => simp at h
  | cons p rest ih =>
    obtain ⟨k', v'⟩ := p
    simp only [List.map_cons, List.nodup_cons] at hnodup
    rcases List.mem_cons.mp h with hhd | htl
    · injection hhd with hk hv
      subst hk
      subst hv
      simp [lookupCond]
    · have hk : k' ≠ k := by
        intro he
        subst he
        exact hnodup.1 (List.mem_map_of_mem Prod.fst htl)
      rw [lookupCond, if_neg hk]
      exact ih hnodup.2 htl

/-- Helper: RuleEngine.evaluate returns the ordered concatenation of the
action lists of the matching rules. -/
lemma evaluate_eq_join (rules : List Rule) (a : Analysis) :
    evaluate rules a =
      ((rules.filter (fun r => ruleMatches r.condition a)).map
        Rule.actions).flatten := by
  induction rules with
  | nil => rfl
  | cons r rest ih =>
    by_cases h : ruleMatches r.condition a
    · simp [evaluate, List.filter_cons, h, ih]
    · simp [evaluate, List.filter_cons, h, ih]

/-- Helper: for a condition whose keys are among intent and priority and
are distinct, the match test of the rule engine agrees with the spec
criterion that every named field equals the corresponding classification
field. -/
lemma ruleMatches_iff (cond : List (String × String)) (a : Analysis)
    (hkeys : ∀ kv ∈ cond, kv.1 = "intent" ∨ kv.1 = "priority")
    (hnodup : (cond.map Prod.fst).Nodup) :
    (ruleMatches cond a = true ↔
      ∀ kv ∈ cond, fieldOf a kv.1 = some kv.2) := by
  constructor
  · intro h kv hkv
    have hlookup : lookupCond cond kv.1 = some kv.2 :=
      lookupCond_of_mem_nodup cond kv.1 kv.2 hnodup hkv
    rw [ruleMatches, Bool.and_eq_true] at h
    rcases hkeys kv hkv with hk | hk
    · have h1 := h.1
      rw [hk] at hlookup ⊢
      rw [hlookup] at h1
      simp only [decide_eq_true_eq] at h1
      simp [fieldOf, h1]
    · have h2 := h.2
      rw [hk] at hlookup ⊢
      rw [hlookup] at h2
      simp only [decide_eq_true_eq] at h2
      simp [fieldOf, h2]
  · intro hall
    rw [ruleMatches, Bool.and_eq_true]
    constructor
    · cases hcase : lookupCond cond "intent" with
      | none => rfl
      | some v =>
        have hmem := lookupCond_mem cond "intent" v hcase
        have hfield := hall _ hmem
        have hf : fieldOf a "intent" = a.intent := by simp [fieldOf]
        rw [hf] at hfield
        simp [hfield]
    · cases hcase : lookupCond cond "priority" with
      | none => rfl
      | some v =>
        have hmem := lookupCond_mem cond "priority" v hcase
        have hfield := hall _ hmem
        have : fieldOf a "priority" = a.priority := by simp [fieldOf]
        rw [this] at hfield
        simp [hfield]

/-- C4: for every rule list and classification, evaluate returns exactly
the ordered concatenation of the matching rules action lists, a rule
matching exactly when every field named in its condition (the match keys
intent and priority, with distinct keys as in a dictionary) equals the
corresponding classification field, absent fields acting as wildcards;
zero matches yields the empty list. -/
theorem C4_rule_engine (rules : List Rule) (a : Analysis)
    (hkeys : ∀ r ∈ rules, ∀ kv ∈ r.condition,
      kv.1 = "intent" ∨ kv.1 = "priority")
    (hnodup : ∀ r ∈ rules, (r.condition.map Prod.fst).Nodup) :
    evaluate rules a =
      ((rules.filter (fun r => ruleMatches r.condition a)).map
        Rule.actions).flatten ∧
    (∀ r ∈ rules, (ruleMatches r.condition a = true ↔
      ∀ kv ∈ r.condition, fieldOf a kv.1 = some kv.2)) ∧
    ((∀ r ∈ rules, ruleMatches r.condition a = false) →
      evaluate rules a = []) := by
  refine ⟨evaluate_eq_join rules a,
    fun r hr => ruleMatches_iff r.condition a (hkeys r hr) (hnodup r hr),
    fun hnone => ?_⟩
  rw [evaluate_eq_join rules a]
  have hfil : rules.filter (fun r => ruleMatches r.condition a) = [] := by
    rw [List.filter_eq_nil_iff]
    intro r hr
    simp [hnone r hr]
  rw [hfil]
  rfl

/-- Witness for C4 at the concrete rule list and the high-confidence
meeting classification of the test scenarios. -/
theorem C4_rule_engine_witness :
    evaluate rules0 a_high =
      ((rules0.filter (fun r => ruleMatches r.condition a_high)).map
        Rule.actions).flatten :=
  (C4_rule_engine rules0 a_high (by decide) (by decide)).1

/-- Helper: validate_action answers send only when the rate limiter
allowed and the confidence gate itself yields send. -/
lemma validate_send_inv (cfg : SafetyConfig) (now : Int) (log : List Int)
    (m : String) (c : ℚ)
    (h : (validate_action cfg now log m c).1 = "send") :
    (check_rate_limit cfg now log).1 = true ∧
    determine_execution_mode cfg c = "send" := by
  by_cases hm : m = "send"
  · subst hm
    by_cases hr : (check_rate_limit cfg now log).1 = false
    · simp [validate_action, hr] at h
    · have hr' : (check_rate_limit cfg now log).1 = true := by
        revert hr
        rcases (check_rate_limit cfg now log).1 with _ | _ <;> simp
      refine ⟨hr', ?_⟩
      by_cases hd : determine_execution_mode cfg c = "send"
      · exact hd
      · simp [validate_action, hr', hd] at h
  · rw [validate_action, if_neg hm] at h
    exact absurd h hm

/-- Helper: one live (non-dry-run) iteration of the action loop appends a
block of external calls in which a send-mode transport call certifies
that the rate limiter allowed and the confidence gate said send at that
point, and a record_action call happens only as the immediate successor
of a successful send-mode transport call. -/
lemma processAction_live_spec (cfg : SafetyConfig) (now : Int)
    (a : Analysis) (st : ResolveState) (act : Action) (ok : Bool) :
    ∃ l, (processAction cfg false now a st act ok).effects =
        st.effects ++ l ∧
      (Effect.sendEmail "send" ∈ l →
        (check_rate_limit cfg now st.log).1 = true ∧
        determine_execution_mode cfg a.confidence_score = "send") ∧
      (Effect.recordSend ∈ l →
        ok = true ∧ l = [Effect.sendEmail "send", Effect.recordSend]) := by
  by_cases h1 : act.type = "draft_reply" ∨ act.type = "reply"
  · simp only [processAction]
    rw [if_pos h1]
    generalize hV : validate_action cfg now st.log
      (if act.type = "draft_reply" then "draft" else "send")
      a.confidence_score = v
    by_cases hman : v.1 = "manual"
    · rw [if_neg (by simp [hman])]
      exact ⟨[], by simp, by simp, by simp⟩
    · rw [if_pos hman, if_neg (by decide : ¬ (false = true))]
      by_cases hresp : a.suggested_response = ""
      · rw [if_pos hresp]
        exact ⟨[], by simp, by simp, by simp⟩
      · rw [if_neg hresp]
        have hvinv : v.1 = "send" →
            (check_rate_limit cfg now st.log).1 = true ∧
            determine_execution_mode cfg a.confidence_score = "send" := by
          intro hs
          exact validate_send_inv cfg now st.log _ a.confidence_score
            (by rw [hV]; exact hs)
        by_cases hok : ok = true
        · rw [if_pos hok]
          by_cases hsend : v.1 = "send"
          · rw [if_pos hsend]
            refine ⟨[Effect.sendEmail "send", Effect.recordSend],
              by simp [hsend], fun _ => hvinv hsend, fun _ => ⟨hok, rfl⟩⟩
          · rw [if_neg hsend]
            refine ⟨[Effect.sendEmail v.1], by simp, ?_, ?_⟩
            · intro hmem
              simp at hmem
              exact hvinv hmem.symm
            · intro hmem
              simp at hmem
        · rw [if_neg hok]
          refine ⟨[Effect.sendEmail v.1], by simp, ?_, ?_⟩
          · intro hmem
            simp at hmem
            exact hvinv hmem.symm
          · intro hmem
            simp at hmem
  · by_cases h2 : act.type = "label"
    · simp only [processAction]
      rw [if_neg h1, if_pos h2, if_neg (by decide : ¬ (false = true))]
      refine ⟨[Effect.addLabel (pyShow act.value)], by simp, ?_, ?_⟩ <;>
        · intro hmem
          simp at hmem
    · by_cases h3 : act.type = "archive"
      · simp only [processAction]
        rw [if_neg h1, if_neg h2, if_pos h3,
          if_neg (by decide : ¬ (false = true))]
        refine ⟨[Effect.archiveEmail], by simp, ?_, ?_⟩ <;>
          · intro hmem
            simp at hmem
      · simp only [processAction]
        rw [if_neg h1, if_neg h2, if_neg h3]
        exact ⟨[], by simp, by simp, by simp⟩

/-- Helper: a send-mode transport call present after a whole live action
loop either was already present before it or certifies that the
confidence gate says send for this classification. -/
lemma processActions_send_effect (cfg : SafetyConfig) (now : Int)
    (a : Analysis) (acts : List (Action × Bool)) :
    ∀ st : ResolveState,
      Effect.sendEmail "send" ∈
        (processActions cfg false now a st acts).effects →
      Effect.sendEmail "send" ∈ st.effects ∨
      determine_execution_mode cfg a.confidence_score = "send" := by
  induction acts with
  | nil =>
    intro st h
    exact Or.inl h
  | cons p rest ih =>
    intro st h
    obtain ⟨act, ok⟩ := p
    rcases ih (processAction cfg false now a st act ok) h with hmem | hd
    · obtain ⟨l, hl, hsend, _⟩ :=
        processAction_live_spec cfg now a st act ok
      rw [hl] at hmem
      rcases List.mem_append.mp hmem with hback | hnew
      · exact Or.inl hback
      · exact Or.inr (hsend hnew).2
    · exact Or.inr hd

/-- Helper: a dry-run iteration of the action loop makes no external
call. -/
lemma processAction_dry_effects (cfg : SafetyConfig) (now : Int)
    (a : Analysis) (st : ResolveState) (act : Action) (ok : Bool) :
    (processAction cfg true now a st act ok).effects = st.effects := by
  by_cases h1 : act.type = "draft_reply" ∨ act.type = "reply"
  · simp only [processAction]
    rw [if_pos h1]
    generalize validate_action cfg now st.log
      (if act.type = "draft_reply" then "draft" else "send")
      a.confidence_score = v
    by_cases hman : v.1 = "manual"
    · rw [if_neg (by simp [hman])]
    · rw [if_pos hman, if_pos trivial]
  · by_cases h2 : act.type = "label"
    · simp only [processAction]
      rw [if_neg h1, if_pos h2, if_pos trivial]
    · by_cases h3 : act.type = "archive"
      · simp only [processAction]
        rw [if_neg h1, if_neg h2, if_pos h3, if_pos trivial]
      · simp only [processAction]
        rw [if_neg h1, if_neg h2, if_neg h3]

/-- Helper: a dry-run action loop makes no external call at all. -/
lemma processActions_dry_effects (cfg : SafetyConfig) (now : Int)
    (a : Analysis) (acts : List (Action × Bool)) :
    ∀ st : ResolveState,
      (processActions cfg true now a st acts).effects = st.effects := by
  induction acts with
  | nil =>
    intro st
    rfl
  | cons p rest ih =>
    intro st
    obtain ⟨act, ok⟩ := p
    rw [processActions, ih, processAction_dry_effects]

/-- Helper: a dry-run iteration records only markers carrying the
DRY_RUN prefix. -/
lemma processAction_dry_executed (cfg : SafetyConfig) (now : Int)
    (a : Analysis) (st : ResolveState) (act : Action) (ok : Bool) :
    ∃ l, (processAction cfg true now a st act ok).executed =
        st.executed ++ l ∧
      ∀ s ∈ l, ∃ t, s = "DRY_RUN_" ++ t := by
  by_cases h1 : act.type = "draft_reply" ∨ act.type = "reply"
  · simp only [processAction]
    rw [if_pos h1]
    generalize validate_action cfg now st.log
      (if act.type = "draft_reply" then "draft" else "send")
      a.confidence_score = v
    by_cases hman : v.1 = "manual"
    · rw [if_neg (by simp [hman])]
      exact ⟨[], by simp, by simp⟩
    · rw [if_pos hman, if_pos trivial]
      refine ⟨["DRY_RUN_" ++ v.1], by simp, ?_⟩
      intro s hs
      simp at hs
      exact ⟨v.1, hs⟩
  · by_cases h2 : act.type = "label"
    · simp only [processAction]
      rw [if_neg h1, if_pos h2, if_pos trivial]
      refine ⟨["DRY_RUN_LABEL_" ++ pyShow act.value], by simp, ?_⟩
      intro s hs
      simp at hs
      refine ⟨"LABEL_" ++ pyShow act.value, ?_⟩
      rw [hs, ← String.append_assoc]
      rfl
    · by_cases h3 : act.type = "archive"
      · simp only [processAction]
        rw [if_neg h1, if_neg h2, if_pos h3, if_pos trivial]
        refine ⟨["DRY_RUN_ARCHIVE"], by simp, ?_⟩
        intro s hs
        simp at hs
        exact ⟨"ARCHIVE", by rw [hs]; rfl⟩
      · simp only [processAction]
        rw [if_neg h1, if_neg h2, if_neg h3]
        exact ⟨[], by simp, by simp⟩

/-- C7: the resolver records (live) or simulates (dry-run) the
human-in-the-loop review label as an additional action exactly when the
confidence is strictly below min_confidence_for_draft and the action
loop executed nothing. -/
theorem C7_fallback_iff (cfg : SafetyConfig) (dryRun : Bool) (now : Int)
    (a : Analysis) (acts : List (Action × Bool)) (log : List Int) :
    (a.confidence_score < cfg.min_confidence_for_draft ∧
        (processActions cfg dryRun now a ⟨[], log, []⟩ acts).executed = [] →
      resolveEmail cfg dryRun now a acts log =
        { executed :=
            (processActions cfg dryRun now a ⟨[], log, []⟩ acts).executed ++
              ["LABEL_" ++ cfg.human_in_the_loop_label]
          log := (processActions cfg dryRun now a ⟨[], log, []⟩ acts).log
          effects :=
            (processActions cfg dryRun now a ⟨[], log, []⟩ acts).effects ++
              (if dryRun then []
               else [Effect.addLabel cfg.human_in_the_loop_label]) }) ∧
    (¬ (a.confidence_score < cfg.min_confidence_for_draft ∧
        (processActions cfg dryRun now a ⟨[], log, []⟩ acts).executed = []) →
      resolveEmail cfg dryRun now a acts log =
        processActions cfg dryRun now a ⟨[], log, []⟩ acts) := by
  constructor
  · intro h
    simp only [resolveEmail]
    rw [if_pos h]
  · intro h
    simp only [resolveEmail]
    rw [if_neg h]

/-- Witness for C7: a low-confidence email with no candidate actions gets
the review label applied live. -/
theorem C7_fallback_iff_witness :
    resolveEmail cfg0 false 7200 a_low [] [] =
      { executed := ["LABEL_AI_REVIEW_NEEDED"]
        log := []
        effects := [Effect.addLabel "AI_REVIEW_NEEDED"] } :=
  (((C7_fallback_iff cfg0 false 7200 a_low [] []).1 (by decide)).trans
    (by decide))

/-- C8: in a live run, each action-loop iteration appends a block of
external calls in which any send-mode transport call certifies that the
rate limiter allowed at gate time and the confidence gate says send, a
record_action call happens only immediately after a successful send-mode
transport call, and across a whole live per-email resolution a send-mode
transport call can only occur when the confidence gate says send. -/
theorem C8_live_send_gating (cfg : SafetyConfig) (now : Int)
    (a : Analysis) (st : ResolveState) (act : Action) (ok : Bool) :
    (∃ l, (processAction cfg false now a st act ok).effects =
        st.effects ++ l ∧
      (Effect.sendEmail "send" ∈ l →
        (check_rate_limit cfg now st.log).1 = true ∧
        determine_execution_mode cfg a.confidence_score = "send") ∧
      (Effect.recordSend ∈ l →
        ok = true ∧ l = [Effect.sendEmail "send", Effect.recordSend])) ∧
    (∀ acts : List (Action × Bool), ∀ log : List Int,
      Effect.sendEmail "send" ∈
        (resolveEmail cfg false now a acts log).effects →
      determine_execution_mode cfg a.confidence_score = "send") := by
  refine ⟨processAction_live_spec cfg now a st act ok, ?_⟩
  intro acts log hmem
  simp only [resolveEmail] at hmem
  by_cases hc : a.confidence_score < cfg.min_confidence_for_draft ∧
      (processActions cfg false now a ⟨[], log, []⟩ acts).executed = []
  · rw [if_pos hc] at hmem
    simp only [] at hmem
    rcases List.mem_append.mp hmem with hloop | hlabel
    · rcases processActions_send_effect cfg now a acts ⟨[], log, []⟩
        hloop with hinit | hd
      · simp at hinit
      · exact hd
    · simp at hlabel
  · rw [if_neg hc] at hmem
    rcases processActions_send_effect cfg now a acts ⟨[], log, []⟩
      hmem with hinit | hd
    · simp at hinit
    · exact hd

/-- Witness for C8: a concrete live resolution in which a send-mode
transport call does occur. -/
theorem C8_live_send_gating_witness :
    determine_execution_mode cfg0 (mkRat 95 100) = "send" :=
  (C8_live_send_gating cfg0 7200 a_high ⟨[], [], []⟩
      { type := "reply", value := none } true).2
    [({ type := "reply", value := none }, true)] [] (by decide)

/-- C9 counterexample: the dry-run simulation of the fallback review
label is recorded without any distinct simulation marker; the recorded
entry is LABEL_AI_REVIEW_NEEDED, identical to what a live run records,
although the dry run dispatched nothing. -/
theorem C9_dry_marker_counterexample :
    (resolveEmail cfg0 true 7200 a_low [] []).executed =
      ["LABEL_AI_REVIEW_NEEDED"] ∧
    (resolveEmail cfg0 false 7200 a_low [] []).executed =
      ["LABEL_AI_REVIEW_NEEDED"] ∧
    (resolveEmail cfg0 true 7200 a_low [] []).effects = [] := by
  decide

/-- C9 amended: under dry-run no Mail Transport call and no record_action
call occurs anywhere in a per-email resolution, and each action-loop
iteration records only markers with the DRY_RUN prefix; the fallback
review label, while also only simulated, is recorded by the same
LABEL marker as in live mode.  With the toggle unset, label and archive
actions are dispatched to the transport. -/
theorem C9_dry_run_simulation (cfg : SafetyConfig) (now : Int)
    (a : Analysis) (acts : List (Action × Bool)) (log : List Int)
    (st : ResolveState) (act : Action) (ok : Bool) :
    (resolveEmail cfg true now a acts log).effects = [] ∧
    (∃ l, (processAction cfg true now a st act ok).executed =
        st.executed ++ l ∧
      ∀ s ∈ l, ∃ t, s = "DRY_RUN_" ++ t) ∧
    (act.type = "label" →
      (processAction cfg false now a st act ok).effects =
        st.effects ++ [Effect.addLabel (pyShow act.value)]) ∧
    (act.type = "archive" →
      (processAction cfg false now a st act ok).effects =
        st.effects ++ [Effect.archiveEmail]) := by
  refine ⟨?_, processAction_dry_executed cfg now a st act ok, ?_, ?_⟩
  · simp only [resolveEmail]
    by_cases hc : a.confidence_score < cfg.min_confidence_for_draft ∧
        (processActions cfg true now a ⟨[], log, []⟩ acts).executed = []
    · rw [if_pos hc]
      simp [processActions_dry_effects cfg now a acts ⟨[], log, []⟩]
    · rw [if_neg hc]
      exact processActions_dry_effects cfg now a acts ⟨[], log, []⟩
  · intro h2
    have h1 : ¬ (act.type = "draft_reply" ∨ act.type = "reply") := by
      rw [h2]
      decide
    simp only [processAction]
    rw [if_neg h1, if_pos h2, if_neg (by decide : ¬ (false = true))]
  · intro h3
    have h1 : ¬ (act.type = "draft_reply" ∨ act.type = "reply") := by
      rw [h3]
      decide
    have h2 : ¬ (act.type = "label") := by
      rw [h3]
      decide
    simp only [processAction]
    rw [if_neg h1, if_neg h2, if_pos h3,
      if_neg (by decide : ¬ (false = true))]

/-- Witness for C9 amended: a concrete dry-run resolution with a reply
action makes no external call, and a concrete live label action is
dispatched. -/
theorem C9_dry_run_simulation_witness :
    (resolveEmail cfg0 true 7200 a_high
      [({ type := "reply", value := none }, true)] []).effects = [] ∧
    (processAction cfg0 false 7200 a_high ⟨[], [], []⟩
      { type := "label", value := some "Newsletters" } true).effects =
      [Effect.addLabel "Newsletters"] :=
  ⟨(C9_dry_run_simulation cfg0 7200 a_high
      [({ type := "reply", value := none }, true)] [] ⟨[], [], []⟩
      { type := "reply", value := none } true).1,
   ((C9_dry_run_simulation cfg0 7200 a_high [] [] ⟨[], [], []⟩
      { type := "label", value := some "Newsletters" } true).2.2.1
      rfl).trans (by decide)⟩

end EmailAgent
